import Mathlib

/-!
Shallow embedding of the range-based incremental-compilation decision engine
in lib/Driver/DriverIncrementalRanges.cpp, together with proofs of the
specified properties of its data model, per-unit state loading, and the
scheduler's decide operation.

The range algebra (SerializableSourceRange and its operations) and the
YAML side-car decoding live outside the file embedded here; those pieces
are modelled from the spec, and each such definition is flagged in its
doc comment.
-/

namespace DriverIncrementalRanges

/-- A (line, column) position in a source buffer
(spec section 3: TextRange endpoints). -/
structure SourcePosition where
  line : Nat
  column : Nat
deriving DecidableEq, Repr

/-- Modelled from the spec: positions are compared lexicographically by
(line, column); the comparison operators of SerializableSourceLocation are
declared outside the embedded file. -/
def SourcePosition.posLE (a b : SourcePosition) : Bool :=
  decide (a.line < b.line ∨ (a.line = b.line ∧ a.column ≤ b.column))

/-- A textual span of a unit's source, from start (inclusive) to endPos
(spec section 3: TextRange). -/
structure SerializableSourceRange where
  start : SourcePosition
  endPos : SourcePosition
deriving DecidableEq, Repr

/-- An ordered collection of ranges (typedef Ranges in the source). -/
abbrev Ranges := List SerializableSourceRange

namespace SerializableSourceRange

/-- Modelled from the spec, section 4.1: contains(a, b) is true iff
b.start >= a.start and b.end <= a.end; the implementation is declared
outside the embedded file. -/
def containsRange (a b : SerializableSourceRange) : Bool :=
  SourcePosition.posLE a.start b.start && SourcePosition.posLE b.endPos a.endPos

/-- Modelled from the spec, section 4.1: findOutliers returns the ordered
subsequence of candidates for which no range in references contains them;
the implementation is declared outside the embedded file. -/
def findAllOutliers (candidates references : Ranges) : Ranges :=
  candidates.filter fun c => !(references.any fun r => r.containsRange c)

/-- Modelled from the spec, section 4.1: findFirstOutlier is the
short-circuiting variant returning the first outlier in candidate order,
or none. -/
def findOutlierIfAny (candidates references : Ranges) : Option SerializableSourceRange :=
  candidates.find? fun c => !(references.any fun r => r.containsRange c)

/-- Modelled from the spec, sections 3 and 4.1: the whole-unit-changed
sentinel, a single range treated as spanning the entire document. -/
def RangesForWholeFile : Ranges :=
  [⟨⟨0, 0⟩, ⟨4294967295, 4294967295⟩⟩]

end SerializableSourceRange

/-- The parsed side-car record of one unit (declared in the driver header):
the local-scope ranges and, per dependency unit, the ranges of that
dependency this unit did not parse last time.
unparsedRangesByNonPrimary is a map with unique keys; it is embedded as an
association list. -/
structure SwiftRangesFileContents where
  noninlinableFunctionBodies : Ranges
  unparsedRangesByNonPrimary : List (String × Ranges)
deriving DecidableEq, Repr

/-- Lookup in the unparsedRangesByNonPrimary map
(std::map::find at the use site, line 285). -/
def findUnparsedRanges : List (String × Ranges) → String → Option Ranges
  | [], _ => none
  | e :: rest, k => if e.1 = k then some e.2 else findUnparsedRanges rest k

/-- Per-unit incremental state (SourceRangeBasedInfo, lines 40-45):
the loaded record, the diff against the current source, and the nonlocal
projection of that diff. -/
structure SourceRangeBasedInfo where
  swiftRangesFileContents : SwiftRangesFileContents
  changedRanges : Ranges
  nonlocalChangedRanges : Ranges
deriving DecidableEq, Repr

/-- computeNonlocalChangedRanges (lines 207-212): the outliers of the
changed ranges with respect to the record's local-scope ranges. -/
def computeNonlocalChangedRanges (swiftRangesFileContents : SwiftRangesFileContents)
    (changedRanges : Ranges) : Ranges :=
  SerializableSourceRange.findAllOutliers changedRanges
    swiftRangesFileContents.noninlinableFunctionBodies

/-- wholeFileChanged (lines 53-57): an empty record with the whole-file
sentinel for both changedRanges and nonlocalChangedRanges. -/
def wholeFileChanged : SourceRangeBasedInfo :=
  ⟨⟨[], []⟩, SerializableSourceRange.RangesForWholeFile,
    SerializableSourceRange.RangesForWholeFile⟩

/-- Modelled from the spec/llvm: llvm::sys::path::filename keeps the last
path component, the characters after the final separator. Helper recursion
over the character list. -/
def filenameAux : List Char → List Char → List Char
  | [], acc => acc.reverse
  | c :: rest, acc => if c = '/' then filenameAux rest [] else filenameAux rest (c :: acc)

/-- Modelled from the spec/llvm: the bare filename of a path. -/
def filename (path : String) : String :=
  String.mk (filenameAux path.toList [])

/-- The map from primary path to per-unit state
(llvm::StringMap of SourceRangeBasedInfo): unique keys, embedded as an
association list. -/
abbrev InfoMap := List (String × SourceRangeBasedInfo)

/-- StringMap::find (use sites lines 254, 285): first entry with the key. -/
def findInfo : InfoMap → String → Option SourceRangeBasedInfo
  | [], _ => none
  | e :: rest, k => if e.1 = k then some e.2 else findInfo rest k

/-- StringMap::count(k) != 0 (use site line 237). -/
def containsKey (m : InfoMap) (k : String) : Bool :=
  m.any fun e => e.1 = k

/-- A driver job (swift::driver::Job), reduced to the accessors the
embedded code consults: the first Swift primary input (empty for a
non-compile job), and the two supplementary output paths used at load
time. The tag stands for the pointer identity of the job object. -/
structure Job where
  tag : Nat
  firstSwiftPrimaryInput : String
  compiledSourcePath : String
  swiftRangesPath : String
deriving DecidableEq, Repr

/-- wasEveryNonprimaryNonlocalChangeUnparsed (lines 274-301): scan every
entry of the state map; an entry is skipped when its key equals the passed
primary name or its nonlocalChangedRanges is empty; otherwise the scan
fails (early return false) when this unit's record has no unparsed ranges
for that key, or when findOutlierIfAny yields a witness. The loop with
early return is embedded as List.all over the per-entry test. -/
def SourceRangeBasedInfo.wasEveryNonprimaryNonlocalChangeUnparsed
    (self : SourceRangeBasedInfo) (primary : String) (allInfos : InfoMap) : Bool :=
  allInfos.all fun e =>
    if e.1 = primary then true
    else if e.2.nonlocalChangedRanges = [] then true
    else
      match findUnparsedRanges self.swiftRangesFileContents.unparsedRangesByNonPrimary e.1 with
      | none => false
      | some unparsedRanges =>
        (SerializableSourceRange.findOutlierIfAny e.2.nonlocalChangedRanges
          unparsedRanges).isNone

/-- didPrimaryParseAnyNonlocalNonprimaryChanges (lines 267-272). -/
def SourceRangeBasedInfo.didPrimaryParseAnyNonlocalNonprimaryChanges
    (self : SourceRangeBasedInfo) (primary : String) (allInfos : InfoMap) : Bool :=
  !(self.wasEveryNonprimaryNonlocalChangeUnparsed primary allInfos)

/-- shouldScheduleCompileJob (lines 247-265). Note that the dependency scan
receives the bare filename of the primary path, not the path itself. -/
def shouldScheduleCompileJob (allInfos : InfoMap) (cmd : Job) : Bool :=
  if cmd.firstSwiftPrimaryInput = "" then true
  else
    match findInfo allInfos cmd.firstSwiftPrimaryInput with
    | none => true
    | some info =>
      if info.changedRanges ≠ [] then true
      else info.didPrimaryParseAnyNonlocalNonprimaryChanges
        (filename cmd.firstSwiftPrimaryInput) allInfos

/-- The observable outcome of
neededCompileJobsForRangeBasedIncrementalCompilation: the returned pair
(neededJobs, jobsLackingSupplementaryOutputs), plus the jobs handed
directly to the schedule callback (line 230), recorded so that the
callback effect is part of the embedded behaviour. -/
structure SchedulingResult where
  neededJobs : List Job
  jobsLackingSupplementaryOutputs : List Job
  jobsScheduledViaCallback : List Job
deriving DecidableEq, Repr

/-- neededCompileJobsForRangeBasedIncrementalCompilation (lines 217-245):
per job, a job without a primary is handed to the schedule callback and is
not inserted into neededJobs; a compile job is inserted into neededJobs
when shouldScheduleCompileJob holds, and pushed onto
jobsLackingSupplementaryOutputs when its primary has no entry in the state
map. -/
def neededCompileJobsForRangeBasedIncrementalCompilation
    (allInfos : InfoMap) : List Job → SchedulingResult
  | [] => ⟨[], [], []⟩
  | cmd :: rest =>
    let r := neededCompileJobsForRangeBasedIncrementalCompilation allInfos rest
    if cmd.firstSwiftPrimaryInput = "" then
      { r with jobsScheduledViaCallback := cmd :: r.jobsScheduledViaCallback }
    else
      { r with
        neededJobs :=
          if shouldScheduleCompileJob allInfos cmd then cmd :: r.neededJobs
          else r.neededJobs
        jobsLackingSupplementaryOutputs :=
          if containsKey allInfos cmd.firstSwiftPrimaryInput then
            r.jobsLackingSupplementaryOutputs
          else cmd :: r.jobsLackingSupplementaryOutputs }

/-- The filesystem collaborator (spec section 6): existence, modification
time (None when stat fails) and whole-file read (None when the read
fails). -/
structure FileSystem where
  fileExists : String → Bool
  modTime : String → Option Nat
  readFile : String → Option String

/-- Filesystem requests issued during a load, recorded as a trace:
best-effort removal, a stat, and a read attempt. The code ignores the
outcome of a removal beyond logging it, so only the request is traced. -/
inductive FsEffect where
  | removed (path : String)
  | statted (path : String)
  | readAttempt (path : String)
deriving DecidableEq, Repr

/-- isFileNewerThan (lines 304-321): stat both paths, none if either stat
fails, otherwise whether lhs's modification time is strictly greater. -/
def isFileNewerThan (fs : FileSystem) (lhs rhs : String) :
    Option Bool × List FsEffect :=
  (match fs.modTime lhs, fs.modTime rhs with
    | some l, some r => some (decide (l > r))
    | _, _ => none,
   [FsEffect.statted lhs, FsEffect.statted rhs])

/-- loadChangedRanges (lines 151-181): freshness shortcut via
isFileNewerThan, then read both buffers and run the diff oracle cmp
(the SourceComparator, an external collaborator passed as a function). -/
def loadChangedRanges (fs : FileSystem) (cmp : String → String → Ranges)
    (compiledSourcePath primaryPath : String) : Option Ranges × List FsEffect :=
  match isFileNewerThan fs compiledSourcePath primaryPath with
  | (none, e) => (none, e)
  | (some true, e) => (some [], e)
  | (some false, e) =>
    match fs.readFile compiledSourcePath with
    | none => (none, e ++ [FsEffect.readAttempt compiledSourcePath])
    | some wasCompiledBefore =>
      match fs.readFile primaryPath with
      | none =>
        (none, e ++ [FsEffect.readAttempt compiledSourcePath,
                     FsEffect.readAttempt primaryPath])
      | some aboutToCompile =>
        (some (cmp wasCompiledBefore aboutToCompile),
         e ++ [FsEffect.readAttempt compiledSourcePath,
               FsEffect.readAttempt primaryPath])

/-- Modelled from the spec, section 6: the required fixed literal header
sequence of a side-car file; the constant is declared outside the embedded
file. -/
def header : String := "### Swift source ranges file v0 ###\n"

/-- SwiftRangesFileContents::load (lines 183-205): none unless the buffer
starts with the header; then the YAML decoding (llvm YAMLTraits, an
external collaborator passed as the function decode) must succeed. -/
def SwiftRangesFileContents.load (decode : String → Option SwiftRangesFileContents)
    (swiftRangesBuffer : String) : Option SwiftRangesFileContents :=
  if swiftRangesBuffer.startsWith header then decode swiftRangesBuffer else none

/-- loadSwiftRangesFileContents (lines 137-149): read the side-car file and
parse it. -/
def loadSwiftRangesFileContents (fs : FileSystem)
    (decode : String → Option SwiftRangesFileContents) (swiftRangesPath : String) :
    Option SwiftRangesFileContents × List FsEffect :=
  (match fs.readFile swiftRangesPath with
    | none => none
    | some buffer => SwiftRangesFileContents.load decode buffer,
   [FsEffect.readAttempt swiftRangesPath])

/-- loadInfoForOnePrimary (lines 95-135): when the primary no longer
exists, request removal of both supplementary paths and return
wholeFileChanged; otherwise load the side-car record and the changed
ranges (both loads run before the check, as in the source), and on either
failure request the removals and return none; on success combine with
computeNonlocalChangedRanges. -/
def loadInfoForOnePrimary (fs : FileSystem)
    (decode : String → Option SwiftRangesFileContents)
    (cmp : String → String → Ranges)
    (primaryPath compiledSourcePath swiftRangesPath : String) :
    Option SourceRangeBasedInfo × List FsEffect :=
  if fs.fileExists primaryPath = false then
    (some wholeFileChanged,
     [FsEffect.removed compiledSourcePath, FsEffect.removed swiftRangesPath])
  else
    let src := loadSwiftRangesFileContents fs decode swiftRangesPath
    let cr := loadChangedRanges fs cmp compiledSourcePath primaryPath
    match src.1, cr.1 with
    | some contents, some changedRanges =>
      (some ⟨contents, changedRanges, computeNonlocalChangedRanges contents changedRanges⟩,
       src.2 ++ cr.2)
    | _, _ =>
      (none, src.2 ++ cr.2 ++
        [FsEffect.removed compiledSourcePath, FsEffect.removed swiftRangesPath])

/-- loadAllInfo (lines 63-93): per job, skip jobs without a primary, load
the per-unit state, skip units whose load failed, and insert the rest
keyed by the primary path. -/
def loadAllInfo (fs : FileSystem)
    (decode : String → Option SwiftRangesFileContents)
    (cmp : String → String → Ranges) : List Job → InfoMap
  | [] => []
  | cmd :: rest =>
    if cmd.firstSwiftPrimaryInput = "" then loadAllInfo fs decode cmp rest
    else
      match (loadInfoForOnePrimary fs decode cmp cmd.firstSwiftPrimaryInput
              cmd.compiledSourcePath cmd.swiftRangesPath).1 with
      | none => loadAllInfo fs decode cmp rest
      | some info => (cmd.firstSwiftPrimaryInput, info) :: loadAllInfo fs decode cmp rest

/-! ### Concrete objects used to instantiate the theorems below -/

/-- A small nonlocal change, line 5 columns 0-10. -/
def sampleRange : SerializableSourceRange := ⟨⟨5, 0⟩, ⟨5, 10⟩⟩

/-- A range covering lines 1-20. -/
def coveringRange : SerializableSourceRange := ⟨⟨1, 0⟩, ⟨20, 0⟩⟩

/-- A record with no local scopes and no unparsed-range entries. -/
def emptyRecord : SwiftRangesFileContents := ⟨[], []⟩

/-- A unit with no textual changes at all. -/
def quietInfo : SourceRangeBasedInfo := ⟨emptyRecord, [], []⟩

/-- A unit whose change is nonlocal. -/
def changedInfo : SourceRangeBasedInfo := ⟨emptyRecord, [sampleRange], [sampleRange]⟩

/-- An unchanged unit that recorded lines 1-20 of b.swift as unparsed. -/
def readerInfo : SourceRangeBasedInfo := ⟨⟨[], [("b.swift", [coveringRange])]⟩, [], []⟩

/-- State map for the dependency scenario of spec section 8. -/
def depScenarioMap : InfoMap := [("a.swift", readerInfo), ("b.swift", changedInfo)]

/-- The dependency scenario map in the opposite iteration order. -/
def depScenarioMapSwapped : InfoMap := [("b.swift", changedInfo), ("a.swift", readerInfo)]

/-- The compile job for a.swift. -/
def readerJob : Job := ⟨2, "a.swift", "a.compiledsource", "a.swiftranges"⟩

/-- The compile job for b.swift. -/
def changedJob : Job := ⟨3, "b.swift", "b.compiledsource", "b.swiftranges"⟩

/-- State map where the key a.swift of a changed unit collides with the
bare filename of the unchanged unit d/a.swift. -/
def collisionMap : InfoMap := [("a.swift", changedInfo), ("d/a.swift", quietInfo)]

/-- The compile job for d/a.swift. -/
def collisionJob : Job := ⟨1, "d/a.swift", "da.compiledsource", "da.swiftranges"⟩

/-- A job that names no primary unit. -/
def nonCompileJob : Job := ⟨0, "", "", ""⟩

/-- A filesystem on which no file exists. -/
def emptyFileSystem : FileSystem := ⟨fun _ => false, fun _ => none, fun _ => none⟩

/-- A filesystem where the saved copy c is strictly newer than everything
else. -/
def freshFileSystem : FileSystem :=
  ⟨fun _ => true, fun q => if q = "c" then some 10 else some 5, fun q => some q⟩

/-- A filesystem where the saved copy c is strictly older than everything
else; reads return the path itself as content. -/
def staleFileSystem : FileSystem :=
  ⟨fun _ => true, fun q => if q = "c" then some 5 else some 10, fun q => some q⟩

/-- A filesystem where every stat fails but files exist and are readable. -/
def statlessFileSystem : FileSystem := ⟨fun _ => true, fun _ => none, fun q => some q⟩

/-- A YAML decoder that always fails. -/
def noDecode : String → Option SwiftRangesFileContents := fun _ => none

/-- A diff oracle that reports no mismatches. -/
def noCompare : String → String → Ranges := fun _ _ => []

/-! ### Supporting lemmas -/

theorem neededJobs_eq_filter (allInfos : InfoMap) (jobs : List Job) :
    (neededCompileJobsForRangeBasedIncrementalCompilation allInfos jobs).neededJobs =
      jobs.filter fun c =>
        c.firstSwiftPrimaryInput ≠ "" && shouldScheduleCompileJob allInfos c := by
  induction jobs with
  | nil => rfl
  | cons cmd rest ih =>
    simp only [neededCompileJobsForRangeBasedIncrementalCompilation, List.filter_cons]
    by_cases hp : cmd.firstSwiftPrimaryInput = ""
    · simp [hp, ih]
    · by_cases hs : shouldScheduleCompileJob allInfos cmd
      · simp [hp, hs, ih]
      · simp [hp, hs, ih]

theorem lacking_eq_filter (allInfos : InfoMap) (jobs : List Job) :
    (neededCompileJobsForRangeBasedIncrementalCompilation allInfos
        jobs).jobsLackingSupplementaryOutputs =
      jobs.filter fun c =>
        c.firstSwiftPrimaryInput ≠ "" && !containsKey allInfos c.firstSwiftPrimaryInput := by
  induction jobs with
  | nil => rfl
  | cons cmd rest ih =>
    simp only [neededCompileJobsForRangeBasedIncrementalCompilation, List.filter_cons]
    by_cases hp : cmd.firstSwiftPrimaryInput = ""
    · simp [hp, ih]
    · by_cases hc : containsKey allInfos cmd.firstSwiftPrimaryInput
      · simp [hp, hc, ih]
      · simp [hp, hc, ih]

theorem callback_eq_filter (allInfos : InfoMap) (jobs : List Job) :
    (neededCompileJobsForRangeBasedIncrementalCompilation allInfos
        jobs).jobsScheduledViaCallback =
      jobs.filter fun c => c.firstSwiftPrimaryInput = "" := by
  induction jobs with
  | nil => rfl
  | cons cmd rest ih =>
    simp only [neededCompileJobsForRangeBasedIncrementalCompilation, List.filter_cons]
    by_cases hp : cmd.firstSwiftPrimaryInput = ""
    · simp [hp, ih]
    · simp [hp, ih]

theorem findInfo_eq_none_iff (m : InfoMap) (k : String) :
    findInfo m k = none ↔ ∀ e ∈ m, e.1 ≠ k := by
  induction m with
  | nil => simp [findInfo]
  | cons e rest ih =>
    by_cases h : e.1 = k
    · simp [findInfo, h]
    · simp [findInfo, h, ih]

theorem mem_of_findInfo_eq_some {m : InfoMap} {k : String} {i : SourceRangeBasedInfo}
    (h : findInfo m k = some i) : (k, i) ∈ m := by
  induction m with
  | nil => simp [findInfo] at h
  | cons e rest ih =>
    cases e with
    | mk a b =>
      by_cases he : a = k
      · subst he
        simp only [findInfo, if_pos, Option.some.injEq] at h
        subst h
        exact List.mem_cons_self _ _
      · simp only [findInfo, if_neg he] at h
        exact List.mem_cons_of_mem _ (ih h)

theorem findInfo_eq_some_of_mem {m : InfoMap} {k : String} {i : SourceRangeBasedInfo}
    (hnd : (m.map Prod.fst).Nodup) (h : (k, i) ∈ m) : findInfo m k = some i := by
  induction m with
  | nil => simp at h
  | cons e rest ih =>
    simp only [List.map_cons, List.nodup_cons] at hnd
    rcases List.mem_cons.mp h with h1 | h1
    · subst h1
      simp [findInfo]
    · have hk : e.1 ≠ k := by
        intro hek
        exact hnd.1 (hek ▸ (List.mem_map.mpr ⟨(k, i), h1, rfl⟩))
      simp [findInfo, hk, ih hnd.2 h1]

theorem findInfo_eq_of_perm {m m' : InfoMap} (hperm : m.Perm m')
    (hnd : (m.map Prod.fst).Nodup) (k : String) :
    findInfo m k = findInfo m' k := by
  cases hfind : findInfo m k with
  | none =>
    have := (findInfo_eq_none_iff m k).mp hfind
    exact ((findInfo_eq_none_iff m' k).mpr fun e he => this e (hperm.mem_iff.mpr he)).symm
  | some i =>
    have hnd' : (m'.map Prod.fst).Nodup := (hperm.map Prod.fst).nodup hnd
    exact (findInfo_eq_some_of_mem hnd'
      (hperm.mem_iff.mp (mem_of_findInfo_eq_some hfind))).symm

theorem all_eq_of_perm {α : Type} {l l' : List α} (h : l.Perm l') (p : α → Bool) :
    l.all p = l'.all p := by
  have : (l.all p = true) ↔ (l'.all p = true) := by
    simp only [List.all_eq_true]
    exact ⟨fun ha x hx => ha x (h.mem_iff.mpr hx), fun ha x hx => ha x (h.mem_iff.mp hx)⟩
  cases hb : l.all p <;> cases hb' : l'.all p <;> simp_all

theorem any_eq_of_perm {α : Type} {l l' : List α} (h : l.Perm l') (p : α → Bool) :
    l.any p = l'.any p := by
  have : (l.any p = true) ↔ (l'.any p = true) := by
    simp only [List.any_eq_true]
    exact ⟨fun ⟨x, hx, hp⟩ => ⟨x, h.mem_iff.mp hx, hp⟩,
           fun ⟨x, hx, hp⟩ => ⟨x, h.mem_iff.mpr hx, hp⟩⟩
  cases hb : l.any p <;> cases hb' : l'.any p <;> simp_all

theorem shouldSchedule_eq_of_perm {m m' : InfoMap} (hperm : m.Perm m')
    (hnd : (m.map Prod.fst).Nodup) (cmd : Job) :
    shouldScheduleCompileJob m cmd = shouldScheduleCompileJob m' cmd := by
  unfold shouldScheduleCompileJob
  rw [findInfo_eq_of_perm hperm hnd]
  cases findInfo m' cmd.firstSwiftPrimaryInput with
  | none => rfl
  | some info =>
    simp only [SourceRangeBasedInfo.didPrimaryParseAnyNonlocalNonprimaryChanges,
      SourceRangeBasedInfo.wasEveryNonprimaryNonlocalChangeUnparsed]
    rw [all_eq_of_perm hperm]

theorem decide_eq_of_perm {m m' : InfoMap} (hperm : m.Perm m')
    (hnd : (m.map Prod.fst).Nodup) (jobs : List Job) :
    neededCompileJobsForRangeBasedIncrementalCompilation m jobs =
      neededCompileJobsForRangeBasedIncrementalCompilation m' jobs := by
  induction jobs with
  | nil => rfl
  | cons cmd rest ih =>
    simp only [neededCompileJobsForRangeBasedIncrementalCompilation, ih,
      shouldSchedule_eq_of_perm hperm hnd, containsKey, any_eq_of_perm hperm]

theorem wasEvery_eq_false_iff (self : SourceRangeBasedInfo) (primary : String) (m : InfoMap) :
    self.wasEveryNonprimaryNonlocalChangeUnparsed primary m = false ↔
      ∃ e ∈ m, e.1 ≠ primary ∧ e.2.nonlocalChangedRanges ≠ [] ∧
        (findUnparsedRanges self.swiftRangesFileContents.unparsedRangesByNonPrimary e.1
            = none ∨
         ∃ u, findUnparsedRanges self.swiftRangesFileContents.unparsedRangesByNonPrimary e.1
            = some u ∧
           SerializableSourceRange.findOutlierIfAny e.2.nonlocalChangedRanges u ≠ none) := by
  unfold SourceRangeBasedInfo.wasEveryNonprimaryNonlocalChangeUnparsed
  rw [Bool.eq_false_iff, Ne, List.all_eq_true]
  push_neg
  constructor
  · rintro ⟨e, he, hfail⟩
    refine ⟨e, he, ?_⟩
    by_cases h1 : e.1 = primary
    · simp [h1] at hfail
    by_cases h2 : e.2.nonlocalChangedRanges = []
    · simp [h1, h2] at hfail
    refine ⟨h1, h2, ?_⟩
    cases hl : findUnparsedRanges self.swiftRangesFileContents.unparsedRangesByNonPrimary e.1 with
    | none => exact Or.inl rfl
    | some u =>
      refine Or.inr ⟨u, rfl, ?_⟩
      intro hnone
      apply hfail
      simp [h1, h2, hl, Option.isNone_iff_eq_none, hnone]
  · rintro ⟨e, he, h1, h2, hcond⟩
    refine ⟨e, he, ?_⟩
    intro htrue
    simp only [if_neg h1, if_neg h2] at htrue
    rcases hcond with hl | ⟨u, hl, hout⟩
    · rw [hl] at htrue
      exact Bool.false_ne_true htrue
    · rw [hl] at htrue
      exact hout (Option.isNone_iff_eq_none.mp htrue)

theorem containsKey_eq_false_iff (m : InfoMap) (k : String) :
    containsKey m k = false ↔ findInfo m k = none := by
  rw [findInfo_eq_none_iff, containsKey, Bool.eq_false_iff, Ne, List.any_eq_true]
  push_neg
  constructor
  · intro h e he
    have := h e he
    simpa using this
  · intro h e he
    simp [h e he]

theorem mem_neededJobs_iff_of_unchanged_primary (m : InfoMap) (jobs : List Job)
    (j : Job) (info : SourceRangeBasedInfo) (hmem : j ∈ jobs)
    (hp : j.firstSwiftPrimaryInput ≠ "")
    (hfind : findInfo m j.firstSwiftPrimaryInput = some info)
    (hch : info.changedRanges = []) :
    j ∈ (neededCompileJobsForRangeBasedIncrementalCompilation m jobs).neededJobs ↔
      ∃ e ∈ m, e.1 ≠ filename j.firstSwiftPrimaryInput ∧
        e.2.nonlocalChangedRanges ≠ [] ∧
        (findUnparsedRanges info.swiftRangesFileContents.unparsedRangesByNonPrimary e.1
            = none ∨
         ∃ u, findUnparsedRanges info.swiftRangesFileContents.unparsedRangesByNonPrimary e.1
            = some u ∧
           SerializableSourceRange.findOutlierIfAny e.2.nonlocalChangedRanges u ≠ none) := by
  rw [neededJobs_eq_filter, List.mem_filter]
  have hnotne : ¬ info.changedRanges ≠ [] := fun h => h hch
  have hstep : (decide (j.firstSwiftPrimaryInput ≠ "") &&
      shouldScheduleCompileJob m j) = shouldScheduleCompileJob m j := by simp [hp]
  rw [hstep]
  simp only [shouldScheduleCompileJob, if_neg hp, hfind, if_neg hnotne,
    SourceRangeBasedInfo.didPrimaryParseAnyNonlocalNonprimaryChanges, Bool.not_eq_true']
  rw [wasEvery_eq_false_iff]
  simp [hmem]

/-! ### Claims -/

/-- Claim C1, counterexample to the claim as stated: a job that names no
primary unit is not a member of the neededJobs set that decide returns
(it is handed to the schedule callback instead). -/
theorem claimC1_counterexample :
    nonCompileJob.firstSwiftPrimaryInput = "" ∧
    nonCompileJob ∈ [nonCompileJob] ∧
    nonCompileJob ∉ (neededCompileJobsForRangeBasedIncrementalCompilation []
      [nonCompileJob]).neededJobs := by
  refine ⟨rfl, List.mem_singleton.mpr rfl, ?_⟩
  decide

/-- Claim C1 (amended): for every job list and state map, every job that
names no primary unit is always scheduled, by being handed directly to the
schedule callback, but it is not included in the returned must-run
(neededJobs) set. -/
theorem claimC1_amended (allInfos : InfoMap) (jobs : List Job) (j : Job)
    (hmem : j ∈ jobs) (hp : j.firstSwiftPrimaryInput = "") :
    j ∈ (neededCompileJobsForRangeBasedIncrementalCompilation allInfos
          jobs).jobsScheduledViaCallback ∧
    j ∉ (neededCompileJobsForRangeBasedIncrementalCompilation allInfos jobs).neededJobs := by
  constructor
  · rw [callback_eq_filter, List.mem_filter]
    exact ⟨hmem, by simp [hp]⟩
  · rw [neededJobs_eq_filter, List.mem_filter]
    rintro ⟨-, hcond⟩
    simp [hp] at hcond

/-- Claim C1, witness: the amended claim at the concrete non-compile job. -/
theorem claimC1_witness :
    nonCompileJob ∈ (neededCompileJobsForRangeBasedIncrementalCompilation []
      [nonCompileJob]).jobsScheduledViaCallback ∧
    nonCompileJob ∉ (neededCompileJobsForRangeBasedIncrementalCompilation []
      [nonCompileJob]).neededJobs :=
  claimC1_amended [] [nonCompileJob] nonCompileJob (List.mem_singleton.mpr rfl) rfl

/-- Claim C2, code-bug evidence: the primary d/a.swift has an entry with
empty changedRanges; another unit keyed a.swift changed non-locally and
the primary's record has no unparsed-range entry for it, so the claim
(and spec section 4.4) requires the job in the must-run set; the code
skips that unit because its key equals the bare filename of the primary
path, and leaves the job unscheduled. -/
theorem claimC2_missed_rebuild_on_basename_collision :
    findInfo collisionMap collisionJob.firstSwiftPrimaryInput = some quietInfo ∧
    quietInfo.changedRanges = [] ∧
    (∃ e ∈ collisionMap, e.1 ≠ collisionJob.firstSwiftPrimaryInput ∧
      e.2.nonlocalChangedRanges ≠ [] ∧
      findUnparsedRanges quietInfo.swiftRangesFileContents.unparsedRangesByNonPrimary e.1
        = none) ∧
    collisionJob ∉ (neededCompileJobsForRangeBasedIncrementalCompilation collisionMap
      [collisionJob]).neededJobs := by
  refine ⟨by decide, rfl, ⟨("a.swift", changedInfo), by decide, by decide, by decide⟩,
    by decide⟩

/-- Claim C3: a compile job whose primary unit has an entry in the state
map with nonempty changedRanges is in the must-run set, regardless of any
other unit's state. -/
theorem claimC3 (allInfos : InfoMap) (jobs : List Job) (j : Job)
    (info : SourceRangeBasedInfo) (hmem : j ∈ jobs)
    (hp : j.firstSwiftPrimaryInput ≠ "")
    (hfind : findInfo allInfos j.firstSwiftPrimaryInput = some info)
    (hch : info.changedRanges ≠ []) :
    j ∈ (neededCompileJobsForRangeBasedIncrementalCompilation allInfos jobs).neededJobs := by
  rw [neededJobs_eq_filter, List.mem_filter]
  refine ⟨hmem, ?_⟩
  simp only [shouldScheduleCompileJob, if_neg hp, hfind, if_pos hch]
  simp [hp]

/-- Claim C3, witness: the self-changed job b.swift is scheduled. -/
theorem claimC3_witness :
    changedJob ∈ (neededCompileJobsForRangeBasedIncrementalCompilation depScenarioMap
      [changedJob]).neededJobs :=
  claimC3 depScenarioMap [changedJob] changedJob changedInfo
    (List.mem_singleton.mpr rfl) (by decide) (by decide) (by decide)

/-- Claim C4: a compile job whose primary unit has no entry in the state
map is included in both the must-run set and the lacking-information
set. -/
theorem claimC4 (allInfos : InfoMap) (jobs : List Job) (j : Job) (hmem : j ∈ jobs)
    (hp : j.firstSwiftPrimaryInput ≠ "")
    (hfind : findInfo allInfos j.firstSwiftPrimaryInput = none) :
    j ∈ (neededCompileJobsForRangeBasedIncrementalCompilation allInfos jobs).neededJobs ∧
    j ∈ (neededCompileJobsForRangeBasedIncrementalCompilation allInfos
          jobs).jobsLackingSupplementaryOutputs := by
  constructor
  · rw [neededJobs_eq_filter, List.mem_filter]
    refine ⟨hmem, ?_⟩
    simp only [shouldScheduleCompileJob, if_neg hp, hfind]
    simp [hp]
  · rw [lacking_eq_filter, List.mem_filter]
    refine ⟨hmem, ?_⟩
    simp [hp, containsKey_eq_false_iff, hfind]

/-- Claim C4, witness: a compile job against the empty state map lands in
both output sets. -/
theorem claimC4_witness :
    readerJob ∈ (neededCompileJobsForRangeBasedIncrementalCompilation []
      [readerJob]).neededJobs ∧
    readerJob ∈ (neededCompileJobsForRangeBasedIncrementalCompilation []
      [readerJob]).jobsLackingSupplementaryOutputs :=
  claimC4 [] [readerJob] readerJob (List.mem_singleton.mpr rfl) (by decide) rfl

/-- Claim C5: when the current source does not exist, per-unit state
construction returns wholeFileChanged, whose changedRanges and
nonlocalChangedRanges are both the whole-file sentinel set, issues
exactly the two best-effort removal requests for the saved-copy and
side-car paths, and performs no stat and no read (the trace contains no
other effect); removal outcomes are not consulted. -/
theorem claimC5 (fs : FileSystem) (decode : String → Option SwiftRangesFileContents)
    (cmp : String → String → Ranges) (p c s : String)
    (h : fs.fileExists p = false) :
    loadInfoForOnePrimary fs decode cmp p c s =
      (some wholeFileChanged, [FsEffect.removed c, FsEffect.removed s]) ∧
    wholeFileChanged.changedRanges = SerializableSourceRange.RangesForWholeFile ∧
    wholeFileChanged.nonlocalChangedRanges = SerializableSourceRange.RangesForWholeFile := by
  refine ⟨?_, rfl, rfl⟩
  simp [loadInfoForOnePrimary, h]

/-- Claim C5, witness: the claim evaluated on a filesystem with no files. -/
theorem claimC5_witness :
    loadInfoForOnePrimary emptyFileSystem noDecode noCompare "p" "c" "s" =
      (some wholeFileChanged, [FsEffect.removed "c", FsEffect.removed "s"]) ∧
    wholeFileChanged.changedRanges = SerializableSourceRange.RangesForWholeFile ∧
    wholeFileChanged.nonlocalChangedRanges = SerializableSourceRange.RangesForWholeFile :=
  claimC5 emptyFileSystem noDecode noCompare "p" "c" "s" rfl

/-- Claim C6: when the saved copy is strictly newer, changedRanges is the
empty set and no buffer is read; when either stat fails, the changed
ranges load fails and (for an existing source) the whole per-unit load
yields no usable state; when the current source is newer or equal, both
buffers are read and the diff oracle's answer is returned. -/
theorem claimC6 (fs : FileSystem) (decode : String → Option SwiftRangesFileContents)
    (cmp : String → String → Ranges) (p c s : String) :
    (∀ tc tp, fs.modTime c = some tc → fs.modTime p = some tp → tp < tc →
      loadChangedRanges fs cmp c p =
        (some [], [FsEffect.statted c, FsEffect.statted p])) ∧
    ((fs.modTime c = none ∨ fs.modTime p = none) →
      loadChangedRanges fs cmp c p =
        (none, [FsEffect.statted c, FsEffect.statted p]) ∧
      (fs.fileExists p = true →
        (loadInfoForOnePrimary fs decode cmp p c s).1 = none)) ∧
    (∀ tc tp oldText newText,
      fs.modTime c = some tc → fs.modTime p = some tp → tc ≤ tp →
      fs.readFile c = some oldText → fs.readFile p = some newText →
      loadChangedRanges fs cmp c p =
        (some (cmp oldText newText),
         [FsEffect.statted c, FsEffect.statted p,
          FsEffect.readAttempt c, FsEffect.readAttempt p])) := by
  refine ⟨?_, ?_, ?_⟩
  · intro tc tp hmc hmp hlt
    have hd : decide (tc > tp) = true := by simp [hlt]
    simp [loadChangedRanges, isFileNewerThan, hmc, hmp, hd]
  · intro hnone
    have hfail : (match fs.modTime c, fs.modTime p with
        | some l, some r => some (decide (l > r))
        | _, _ => none : Option Bool) = none := by
      rcases hnone with hc | hp'
      · simp [hc]
      · cases fs.modTime c <;> simp [hp']
    have hlc : loadChangedRanges fs cmp c p =
        (none, [FsEffect.statted c, FsEffect.statted p]) := by
      simp [loadChangedRanges, isFileNewerThan, hfail]
    refine ⟨hlc, ?_⟩
    intro hex
    have hex' : ¬ (fs.fileExists p = false) := by simp [hex]
    simp only [loadInfoForOnePrimary, if_neg hex']
    cases hsrc : (loadSwiftRangesFileContents fs decode s).1 <;> simp [hlc]
  · intro tc tp oldText newText hmc hmp hle hrc hrp
    have hd : decide (tc > tp) = false := by simp [Nat.not_lt.mpr hle]
    simp [loadChangedRanges, isFileNewerThan, hmc, hmp, hd, hrc, hrp]

/-- Claim C6, witness: the three branches at concrete filesystems — fresh
saved copy (no reads), failing stat (no usable state), stale saved copy
(both reads, oracle invoked). -/
theorem claimC6_witness :
    loadChangedRanges freshFileSystem noCompare "c" "p" =
      (some [], [FsEffect.statted "c", FsEffect.statted "p"]) ∧
    loadChangedRanges statlessFileSystem noCompare "c" "p" =
      (none, [FsEffect.statted "c", FsEffect.statted "p"]) ∧
    (loadInfoForOnePrimary statlessFileSystem noDecode noCompare "p" "c" "s").1 = none ∧
    loadChangedRanges staleFileSystem noCompare "c" "p" =
      (some (noCompare "c" "p"),
       [FsEffect.statted "c", FsEffect.statted "p",
        FsEffect.readAttempt "c", FsEffect.readAttempt "p"]) :=
  ⟨(claimC6 freshFileSystem noDecode noCompare "p" "c" "s").1 10 5 rfl rfl (by decide),
   ((claimC6 statlessFileSystem noDecode noCompare "p" "c" "s").2.1 (Or.inl rfl)).1,
   ((claimC6 statlessFileSystem noDecode noCompare "p" "c" "s").2.1 (Or.inl rfl)).2 rfl,
   (claimC6 staleFileSystem noDecode noCompare "p" "c" "s").2.2 5 10 "c" "p"
     rfl rfl (by decide) rfl rfl⟩

/-- Claim C7: every constructed per-unit state satisfies
nonlocalChangedRanges = findAllOutliers(changedRanges, local scopes);
hence nonlocalChangedRanges is elementwise contained in changedRanges and
empty changedRanges forces empty nonlocalChangedRanges. -/
theorem claimC7 (fs : FileSystem) (decode : String → Option SwiftRangesFileContents)
    (cmp : String → String → Ranges) (p c s : String)
    (info : SourceRangeBasedInfo) (effs : List FsEffect)
    (h : loadInfoForOnePrimary fs decode cmp p c s = (some info, effs)) :
    info.nonlocalChangedRanges = SerializableSourceRange.findAllOutliers
        info.changedRanges info.swiftRangesFileContents.noninlinableFunctionBodies ∧
    (∀ r ∈ info.nonlocalChangedRanges, r ∈ info.changedRanges) ∧
    (info.changedRanges = [] → info.nonlocalChangedRanges = []) := by
  have hinv : info.nonlocalChangedRanges = SerializableSourceRange.findAllOutliers
      info.changedRanges info.swiftRangesFileContents.noninlinableFunctionBodies := by
    by_cases hex : fs.fileExists p = false
    · simp only [loadInfoForOnePrimary, if_pos hex, Prod.mk.injEq] at h
      obtain ⟨h1, -⟩ := h
      obtain rfl := Option.some.inj h1.symm
      rfl
    · simp only [loadInfoForOnePrimary, if_neg hex] at h
      cases hsrc : (loadSwiftRangesFileContents fs decode s).1 with
      | none => rw [hsrc] at h; simp at h
      | some contents =>
        cases hcr : (loadChangedRanges fs cmp c p).1 with
        | none => rw [hsrc, hcr] at h; simp at h
        | some changed =>
          rw [hsrc, hcr] at h
          simp only [Prod.mk.injEq] at h
          obtain ⟨h1, -⟩ := h
          obtain rfl := Option.some.inj h1.symm
          rfl
  refine ⟨hinv, ?_, ?_⟩
  · intro r hr
    rw [hinv] at hr
    exact (List.mem_filter.mp hr).1
  · intro hch
    rw [hinv, hch]
    rfl

/-- Claim C7, witness: the invariant at the concrete state produced for a
vanished source file. -/
theorem claimC7_witness :
    wholeFileChanged.nonlocalChangedRanges = SerializableSourceRange.findAllOutliers
        wholeFileChanged.changedRanges
        wholeFileChanged.swiftRangesFileContents.noninlinableFunctionBodies ∧
    (∀ r ∈ wholeFileChanged.nonlocalChangedRanges, r ∈ wholeFileChanged.changedRanges) ∧
    (wholeFileChanged.changedRanges = [] → wholeFileChanged.nonlocalChangedRanges = []) :=
  claimC7 emptyFileSystem noDecode noCompare "p" "c" "s" wholeFileChanged
    [FsEffect.removed "c", FsEffect.removed "s"] rfl

/-- Claim C8: parsing a side-car buffer succeeds iff the buffer starts
with the fixed header and the structured body decodes; when the parse
fails for a unit whose source exists, the unit gets no usable state and
both supplementary paths are requested for removal. -/
theorem claimC8 (fs : FileSystem) (decode : String → Option SwiftRangesFileContents)
    (cmp : String → String → Ranges) (p c s buffer : String) :
    ((SwiftRangesFileContents.load decode buffer).isSome ↔
      buffer.startsWith header = true ∧ (decode buffer).isSome = true) ∧
    (fs.fileExists p = true → fs.readFile s = some buffer →
      SwiftRangesFileContents.load decode buffer = none →
      (loadInfoForOnePrimary fs decode cmp p c s).1 = none ∧
      FsEffect.removed c ∈ (loadInfoForOnePrimary fs decode cmp p c s).2 ∧
      FsEffect.removed s ∈ (loadInfoForOnePrimary fs decode cmp p c s).2) := by
  constructor
  · unfold SwiftRangesFileContents.load
    by_cases hh : buffer.startsWith header
    · simp [hh]
    · simp [hh]
  · intro hex hread hfail
    have hsrc : (loadSwiftRangesFileContents fs decode s).1 = none := by
      simp [loadSwiftRangesFileContents, hread, hfail]
    have hex' : ¬ (fs.fileExists p = false) := by simp [hex]
    simp only [loadInfoForOnePrimary, if_neg hex']
    rw [hsrc]
    simp

/-- Claim C8, witness: a buffer lacking the header on a filesystem whose
reads return the path itself. -/
theorem claimC8_witness :
    ((SwiftRangesFileContents.load noDecode "s").isSome ↔
      "s".startsWith header = true ∧ (noDecode "s").isSome = true) ∧
    ((loadInfoForOnePrimary staleFileSystem noDecode noCompare "p" "c" "s").1 = none ∧
     FsEffect.removed "c" ∈
       (loadInfoForOnePrimary staleFileSystem noDecode noCompare "p" "c" "s").2 ∧
     FsEffect.removed "s" ∈
       (loadInfoForOnePrimary staleFileSystem noDecode noCompare "p" "c" "s").2) :=
  ⟨(claimC8 staleFileSystem noDecode noCompare "p" "c" "s" "s").1,
   (claimC8 staleFileSystem noDecode noCompare "p" "c" "s" "s").2 rfl rfl
     (by unfold SwiftRangesFileContents.load; split <;> rfl)⟩

/-- Claim C9: decide is deterministic — the same state map and job list
give the same result — and the result is invariant under any permutation
of the state map with unique keys, so no job's membership depends on the
iteration order over the other units. -/
theorem claimC9 (m m' : InfoMap) (jobs : List Job) (hperm : m.Perm m')
    (hnd : (m.map Prod.fst).Nodup) :
    neededCompileJobsForRangeBasedIncrementalCompilation m jobs =
      neededCompileJobsForRangeBasedIncrementalCompilation m jobs ∧
    neededCompileJobsForRangeBasedIncrementalCompilation m jobs =
      neededCompileJobsForRangeBasedIncrementalCompilation m' jobs :=
  ⟨rfl, decide_eq_of_perm hperm hnd jobs⟩

/-- Claim C9, witness: the dependency-scenario map and its reversal give
the same decision. -/
theorem claimC9_witness :
    neededCompileJobsForRangeBasedIncrementalCompilation depScenarioMap [readerJob] =
      neededCompileJobsForRangeBasedIncrementalCompilation depScenarioMap [readerJob] ∧
    neededCompileJobsForRangeBasedIncrementalCompilation depScenarioMap [readerJob] =
      neededCompileJobsForRangeBasedIncrementalCompilation depScenarioMapSwapped
        [readerJob] :=
  claimC9 depScenarioMap depScenarioMapSwapped [readerJob]
    (List.Perm.swap _ _ _) (by decide)

/-- Claim C10: for a unit whose entry has empty changedRanges (and hence,
by the construction invariant, empty nonlocalChangedRanges), the outcome
of the dependency scan is the same whether or not the unit's own entry is
in the scanned map, for any key under which it is stored and any name the
scan compares keys against — in particular even though the scan compares
full-path keys against a bare filename. -/
theorem claimC10 (selfInfo : SourceRangeBasedInfo) (k fname : String)
    (m1 m2 : InfoMap) (hch : selfInfo.changedRanges = [])
    (hwf : selfInfo.nonlocalChangedRanges =
      computeNonlocalChangedRanges selfInfo.swiftRangesFileContents
        selfInfo.changedRanges) :
    selfInfo.nonlocalChangedRanges = [] ∧
    selfInfo.didPrimaryParseAnyNonlocalNonprimaryChanges fname
        (m1 ++ (k, selfInfo) :: m2) =
      selfInfo.didPrimaryParseAnyNonlocalNonprimaryChanges fname (m1 ++ m2) := by
  have hnl : selfInfo.nonlocalChangedRanges = [] := by
    rw [hwf, hch]
    rfl
  refine ⟨hnl, ?_⟩
  unfold SourceRangeBasedInfo.didPrimaryParseAnyNonlocalNonprimaryChanges
    SourceRangeBasedInfo.wasEveryNonprimaryNonlocalChangeUnparsed
  simp only [List.all_append, List.all_cons]
  by_cases hk : k = fname
  · simp [hk]
  · simp [hk, hnl]

/-- Claim C10, witness: the scan over the map with and without the quiet
unit's own entry, stored under d/a.swift while the scan compares against
the bare name a.swift. -/
theorem claimC10_witness :
    quietInfo.nonlocalChangedRanges = [] ∧
    quietInfo.didPrimaryParseAnyNonlocalNonprimaryChanges "a.swift"
        ([("b.swift", changedInfo)] ++ ("d/a.swift", quietInfo) :: []) =
      quietInfo.didPrimaryParseAnyNonlocalNonprimaryChanges "a.swift"
        ([("b.swift", changedInfo)] ++ []) :=
  claimC10 quietInfo "d/a.swift" "a.swift" [("b.swift", changedInfo)] [] rfl rfl

end DriverIncrementalRanges
